import Mathlib

/-!
# Verification of the career-intelligence aggregation service

Shallow embedding of `backend/app/services/career_intelligence.py`.

Modelling conventions:
* Python floats are modelled as exact rationals (`ℚ`); `round(x, 2)` is
  round-half-to-even to two decimal places (`rnd2`).
* A Mongo document value that may be null, numeric or non-numeric is a `JVal`;
  a dict field that may be absent is an `Option`; dicts are association lists.
* `datetime` values are modelled as abstract instants (`ℕ`); the
  `strftime("%Y-%m-%d")` rendering of a trend date is represented by the chosen
  instant itself, with `none` standing for the empty string used when all three
  timestamp fields are null.
* `str(interview.get("_id"))` is modelled by `idStr`: the `_id` field carries
  the string rendering of the ObjectId when present, and `str(None) = "None"`
  when the field is absent.
* The Mongo fetch (`find` sorted by `created_at` ascending) is external; the
  embedded `rebuild_user_intelligence` takes the fetched per-user list as its
  argument, in fetch order, together with the current time and the current
  content of the per-user intelligence-store row.
-/

namespace CareerIntel

/-- A loosely-typed document value: null, a number, or a non-numeric value
(anything on which Python's `float()` raises `TypeError`/`ValueError`). -/
inductive JVal where
  | vnone : JVal
  | vnum : ℚ → JVal
  | vbad : JVal
deriving DecidableEq, Repr

/-- Round-half-to-even to two decimal places, Python's `round(x, 2)` on the
idealized (exact) reading of float arithmetic. -/
def rnd2 (x : ℚ) : ℚ :=
  let y := x * 100
  let f : ℤ := ⌊y⌋
  let frac := y - (f : ℚ)
  let k : ℤ :=
    if frac < 1 / 2 then f
    else if 1 / 2 < frac then f + 1
    else if f % 2 = 0 then f else f + 1
  (k : ℚ) / 100

/-- `max(0.0, min(100.0, round(score, 2)))` from `_to_score`. -/
def clampScore (score : ℚ) : ℚ :=
  max 0 (min 100 (rnd2 score))

/-- `_to_score(value)`: `float(value or 0)` with `TypeError`/`ValueError`
falling back to `0`, then round to 2 places and clamp into `[0, 100]`.
A null (falsy) input becomes `float(0)`; a non-numeric input either is falsy
(so becomes `float(0)`) or makes `float` raise — both give score `0`. -/
def toScore : JVal → ℚ
  | JVal.vnone => clampScore 0
  | JVal.vbad => clampScore 0
  | JVal.vnum q => clampScore q

/-- `REQUIRED_SKILLS` (module-level constant). -/
def REQUIRED_SKILLS : List String :=
  ["DSA", "System Design", "Behavioral", "Communication"]

/-- `d.get(k, dflt)` on an association-list dict: the stored value of the
first pair carrying the key, the default when the key is absent. -/
def dictGetD (d : List (String × JVal)) (k : String) (dflt : JVal) : JVal :=
  ((d.find? (fun p => p.1 == k)).map Prod.snd).getD dflt

/-- One interview document, restricted to the fields the aggregator reads.
`none` on an `Option` field means the key is absent from the document. -/
structure Interview where
  mongoId : Option String
  status : Option String
  skill_scores : Option (List (String × JVal))
  skill_breakdown : Option (List (String × JVal))
  total_score : Option JVal
  overall_score : Option JVal
  completed_at : Option ℕ
  updated_at : Option ℕ
  created_at : Option ℕ
  role : Option String
  job_role : Option String
deriving DecidableEq, Repr

/-- `interview.get("skill_scores") or interview.get("skill_breakdown") or {}`:
Python `or` falls through on a missing key (None) and on an empty dict. -/
def rawSkillDict (i : Interview) : List (String × JVal) :=
  match i.skill_scores with
  | some (p :: ps) => p :: ps
  | _ =>
    match i.skill_breakdown with
    | some (p :: ps) => p :: ps
    | _ => []

/-- The normalized value `_to_score(raw.get(skill, 0))` for one skill. -/
def skillValue (i : Interview) (skill : String) : ℚ :=
  toScore (dictGetD (rawSkillDict i) skill (JVal.vnum 0))

/-- `_extract_skill_scores(interview)`: a dict with exactly the required
skills as keys, each coerced through `_to_score`. -/
def extractSkillScores (i : Interview) : List (String × ℚ) :=
  REQUIRED_SKILLS.map (fun skill => (skill, skillValue i skill))

/-- `_extract_total_score(interview)`:
`_to_score(interview.get("total_score", interview.get("overall_score", 0)))`.
`dict.get` with a default uses the stored value whenever the key is present,
even when that value is null. -/
def extractTotalScore (i : Interview) : ℚ :=
  toScore (i.total_score.getD (i.overall_score.getD (JVal.vnum 0)))

/-- `str(interview.get("_id"))`: `str(None)` is the string `"None"`. -/
def idStr (o : Option String) : String := o.getD "None"

/-- `interview.get("completed_at") or interview.get("updated_at") or
interview.get("created_at")`: datetimes are truthy, so this is the first
non-null timestamp in that preference order. -/
def chainDate (i : Interview) : Option ℕ :=
  (i.completed_at.orElse fun _ => i.updated_at).orElse fun _ => i.created_at

/-- Python `a or fb` for an optional string `a`: an absent key and the empty
string are both falsy. -/
def strOr (o : Option String) (fb : String) : String :=
  match o with
  | some s => if s = "" then fb else s
  | none => fb

/-- `interview.get("role") or interview.get("job_role") or "Unknown"`. -/
def roleOf (i : Interview) : String :=
  strOr i.role (strOr i.job_role "Unknown")

/-- One `score_trend` entry; `date` holds the chosen timestamp (`none` for the
empty string written when all timestamp fields are null). -/
structure TrendEntry where
  interview_id : String
  attempt : ℕ
  date : Option ℕ
  score : ℚ
deriving DecidableEq, Repr

/-- One `role_breakdown` entry. -/
structure RoleEntry where
  role : String
  count : ℕ
  average_score : ℚ
deriving DecidableEq, Repr

/-- The summary payload assembled by `rebuild_user_intelligence` (the
document upserted into the `career_intelligence` collection; the `user_id`
key is the query key, not computed state, and is omitted). -/
structure Payload where
  total_interviews : ℤ
  completed_interviews : ℤ
  pending_interviews : ℤ
  completion_rate : ℚ
  average_score : ℚ
  strongest_skill : String
  weakest_skill : String
  skill_scores : List (String × ℚ)
  score_trend : List TrendEntry
  role_breakdown : List RoleEntry
  updated_at : ℕ
  recommendations : List String
deriving DecidableEq, Repr

/-- `[item for item in interviews if item.get("status") == "completed"]`. -/
def completedOf (interviews : List Interview) : List Interview :=
  interviews.filter (fun i => i.status == some "completed")

/-- Python `max(d, key=d.get)`: the first key (in insertion order) whose value
is maximal; `max` replaces its running best only on a strictly greater key. -/
def pickMax : (String × ℚ) → List (String × ℚ) → (String × ℚ)
  | best, [] => best
  | best, p :: rest => pickMax (if best.2 < p.2 then p else best) rest

/-- Python `min(d, key=d.get)`: the first key whose value is minimal. -/
def pickMin : (String × ℚ) → List (String × ℚ) → (String × ℚ)
  | best, [] => best
  | best, p :: rest => pickMin (if p.2 < best.2 then p else best) rest

def argmaxKey (d : List (String × ℚ)) : String :=
  match d with
  | [] => ""
  | p :: rest => (pickMax p rest).1

def argminKey (d : List (String × ℚ)) : String :=
  match d with
  | [] => ""
  | p :: rest => (pickMin p rest).1

/-- `aggregated_skill_scores[k]` (direct indexing; the key is always one of
the four required skills, which are always present). -/
def dictGetQ (d : List (String × ℚ)) (k : String) : ℚ :=
  ((d.find? (fun p => p.1 == k)).map Prod.snd).getD 0

/-- `d[k] = v` on an association-list dict: overwrite in place when the key
exists (its position is kept), append otherwise. -/
def dictSet (d : List (String × ℚ)) (k : String) (v : ℚ) : List (String × ℚ) :=
  if d.any (fun p => p.1 == k) then
    d.map (fun p => if p.1 == k then (p.1, v) else p)
  else d ++ [(k, v)]

/-- The `role_stats` accumulation loop: a dict in insertion order mapping a
role to its `(count, total)` pair. -/
def roleStats (completed : List Interview) : List (String × ℕ × ℚ) :=
  completed.foldl
    (fun acc i =>
      let role := roleOf i
      let score := extractTotalScore i
      if acc.any (fun p => p.1 == role) then
        acc.map (fun p => if p.1 == role then (p.1, p.2.1 + 1, p.2.2 + score) else p)
      else acc ++ [(role, 1, score)])
    []

/-- The local `completion_rate`:
`round((completed_count / total) * 100, 2) if total else 0`. -/
def completionRateOf (completed_count total : ℕ) : ℚ :=
  if total ≠ 0 then rnd2 (((completed_count : ℚ) / (total : ℚ)) * 100) else 0

/-- The local `average_score`:
`round(sum(score_values) / len(score_values), 2) if score_values else 0`. -/
def averageScoreOf (score_values : List ℚ) : ℚ :=
  if score_values ≠ [] then rnd2 (score_values.sum / (score_values.length : ℚ))
  else 0

/-- The `skill_buckets` accumulation: the double loop appends, for every
completed interview in order, its normalized value for every required skill
(missing skill ⇒ normalized `0`) to that skill's bucket. -/
def skillBuckets (completed : List Interview) : List (String × List ℚ) :=
  REQUIRED_SKILLS.map (fun skill =>
    (skill, completed.map (fun i => skillValue i skill)))

/-- The local `aggregated_skill_scores`:
`round(sum(values) / len(values), 2) if values else 0` per bucket. -/
def aggregatedSkillScores (completed : List Interview) : List (String × ℚ) :=
  (skillBuckets completed).map (fun p =>
    (p.1, if p.2 ≠ [] then rnd2 (p.2.sum / (p.2.length : ℚ)) else 0))

/-- The `trend` assembly loop: `enumerate(completed_interviews, start=1)`. -/
def trendOf (completed : List Interview) : List TrendEntry :=
  completed.enum.map (fun p =>
    { interview_id := idStr p.2.mongoId
      attempt := p.1 + 1
      date := chainDate p.2
      score := extractTotalScore p.2 })

/-- The local `role_breakdown`: one entry per distinct role with count and
rounded mean, sorted by role name (Python's stable `list.sort`). -/
def roleBreakdownOf (completed : List Interview) : List RoleEntry :=
  ((roleStats completed).map (fun p =>
    { role := p.1
      count := p.2.1
      average_score := rnd2 (p.2.2 / (p.2.1 : ℚ)) : RoleEntry })).mergeSort
    (fun a b => a.role ≤ b.role)

/-- The `recommendations` rule list, evaluated in declaration order with the
default maintenance tip when no rule triggered. -/
def recommendationsOf (aggregated_skill_scores : List (String × ℚ))
    (average_score : ℚ) : List String :=
  let recommendations :=
    (if dictGetQ aggregated_skill_scores "System Design" < 70 then
       ["Improve system design fundamentals"] else []) ++
    (if dictGetQ aggregated_skill_scores "DSA" < 70 then
       ["Practice DSA problem solving regularly"] else []) ++
    (if average_score < 75 then
       ["Practice timed mock interviews to improve consistency"] else [])
  if recommendations = [] then
    ["Maintain consistency with advanced interview sets"]
  else recommendations

/-- The body of `rebuild_user_intelligence` from the fetched interview list to
the assembled payload (everything before the validation call), with `now`
standing for `datetime.utcnow()`. Each local of the Python function is one of
the named definitions above. -/
def buildPayload (interviews : List Interview) (now : ℕ) : Payload :=
  let completed_interviews := completedOf interviews
  let aggregated_skill_scores := aggregatedSkillScores completed_interviews
  let average_score := averageScoreOf (completed_interviews.map extractTotalScore)
  { total_interviews := (interviews.length : ℤ)
    completed_interviews := (completed_interviews.length : ℤ)
    pending_interviews := (interviews.length : ℤ) - (completed_interviews.length : ℤ)
    completion_rate := completionRateOf completed_interviews.length interviews.length
    average_score := average_score
    strongest_skill :=
      if completed_interviews.length ≠ 0 then argmaxKey aggregated_skill_scores else "-"
    weakest_skill :=
      if completed_interviews.length ≠ 0 then argminKey aggregated_skill_scores else "-"
    skill_scores := aggregated_skill_scores
    score_trend := trendOf completed_interviews
    role_breakdown := roleBreakdownOf completed_interviews
    updated_at := now
    recommendations := recommendationsOf aggregated_skill_scores average_score }

/-- `_validate_intelligence(payload)`: raises `ValueError` (modelled as
`Except.error`) on a negative total, an out-of-range average, or duplicate
truthy interview ids in `score_trend`; re-clamps the four required skill
scores in place (returned here as the updated payload, since the caller
persists the mutated dict). -/
def validateIntelligence (payload : Payload) : Except String Payload :=
  if payload.total_interviews < 0 then
    Except.error "total_interviews must be >= 0"
  else
    let average_score := clampScore payload.average_score
    if average_score < 0 ∨ 100 < average_score then
      Except.error "average_score must be between 0 and 100"
    else
      let skill_scores :=
        REQUIRED_SKILLS.foldl
          (fun d skill => dictSet d skill (clampScore (dictGetQ d skill)))
          payload.skill_scores
      let ids :=
        (payload.score_trend.map (fun item => item.interview_id)).filter
          (fun s => s ≠ "")
      if ids.length ≠ ids.dedup.length then
        Except.error "duplicate entries in score_trend"
      else Except.ok { payload with skill_scores := skill_scores }

/-- `rebuild_user_intelligence` from the already-fetched interview list:
assemble the payload, validate it, and only then upsert it as the user's
single intelligence-store row (`store` is that row's prior content). A
validation error propagates to the caller before the upsert runs, leaving the
store untouched. Returns the result seen by the caller together with the
store row after the call. -/
def rebuildUserIntelligence (interviews : List Interview) (now : ℕ)
    (store : Option Payload) : Except String Payload × Option Payload :=
  let payload := buildPayload interviews now
  match validateIntelligence payload with
  | Except.error e => (Except.error e, store)
  | Except.ok validated => (Except.ok validated, some validated)

/-- Equality of two summary payloads on every field except `updated_at`. -/
def eqExceptUpdatedAt (p q : Payload) : Prop :=
  p.total_interviews = q.total_interviews ∧
  p.completed_interviews = q.completed_interviews ∧
  p.pending_interviews = q.pending_interviews ∧
  p.completion_rate = q.completion_rate ∧
  p.average_score = q.average_score ∧
  p.strongest_skill = q.strongest_skill ∧
  p.weakest_skill = q.weakest_skill ∧
  p.skill_scores = q.skill_scores ∧
  p.score_trend = q.score_trend ∧
  p.role_breakdown = q.role_breakdown ∧
  p.recommendations = q.recommendations

/-- Erase the `updated_at` field (for comparing rebuild results modulo the
rebuild timestamp). -/
def clearUpdatedAt (p : Payload) : Payload :=
  { p with updated_at := 0 }

/-- The per-skill mean as the specification words it: the "mean score across
completed interviews that contributed a value for that skill; 0 for a skill
with no contributing interviews", with interviews holding no stored value for
the skill excluded from that skill's mean. Written from the spec's words, to
be compared against the aggregation in `buildPayload`. -/
def specSkillScore (ivs : List Interview) (skill : String) : ℚ :=
  let contributing :=
    (completedOf ivs).filter (fun i => (rawSkillDict i).any (fun p => p.1 == skill))
  let vals :=
    contributing.map (fun i => toScore (dictGetD (rawSkillDict i) skill (JVal.vnum 0)))
  if vals = [] then 0 else rnd2 (vals.sum / (vals.length : ℚ))

/-- A completed interview document carrying a DSA skill value equal to its
total score (concrete test input). -/
def demoCompleted (id : String) (score : ℚ) (t : ℕ) : Interview :=
  { mongoId := some id
    status := some "completed"
    skill_scores := some [("DSA", JVal.vnum score)]
    skill_breakdown := none
    total_score := some (JVal.vnum score)
    overall_score := none
    completed_at := some t
    updated_at := some (t + 1)
    created_at := some t
    role := some "Backend Developer"
    job_role := none }

/-- A completed interview document with no skill breakdown at all (concrete
test input). -/
def demoNoSkills (id : String) (score : ℚ) (t : ℕ) : Interview :=
  { mongoId := some id
    status := some "completed"
    skill_scores := none
    skill_breakdown := none
    total_score := some (JVal.vnum score)
    overall_score := none
    completed_at := none
    updated_at := some t
    created_at := some t
    role := none
    job_role := some "Data Engineer" }

/-- A not-yet-completed interview document (concrete test input). -/
def demoPending (id : String) (t : ℕ) : Interview :=
  { mongoId := some id
    status := some "in_progress"
    skill_scores := none
    skill_breakdown := none
    total_score := none
    overall_score := none
    completed_at := none
    updated_at := none
    created_at := some t
    role := some "Backend Developer"
    job_role := none }

/-- A mixed-status concrete interview history with distinct ids. -/
def demoMix : List Interview :=
  [demoCompleted "a" 60 1, demoNoSkills "b" 90 2, demoPending "p" 3]

/-! ## Helper lemmas -/

theorem clampScore_nonneg (q : ℚ) : 0 ≤ clampScore q :=
  le_max_left 0 _

theorem clampScore_le (q : ℚ) : clampScore q ≤ 100 :=
  max_le (by norm_num) (min_le_left 100 _)

theorem toScore_nonneg (v : JVal) : 0 ≤ toScore v := by
  cases v <;> exact clampScore_nonneg _

theorem toScore_le (v : JVal) : toScore v ≤ 100 := by
  cases v <;> exact clampScore_le _

theorem extractTotalScore_nonneg (i : Interview) : 0 ≤ extractTotalScore i :=
  toScore_nonneg _

theorem extractTotalScore_le (i : Interview) : extractTotalScore i ≤ 100 :=
  toScore_le _

theorem rnd2_zero : rnd2 0 = 0 := by
  rw [rnd2]
  norm_num

theorem clampScore_zero : clampScore 0 = 0 := by
  rw [clampScore, rnd2_zero]
  norm_num

theorem toScore_vnone : toScore JVal.vnone = 0 := clampScore_zero

theorem toScore_vbad : toScore JVal.vbad = 0 := clampScore_zero

theorem toScore_vnum_zero : toScore (JVal.vnum 0) = 0 := clampScore_zero

theorem rnd2_intCast (z : ℤ) : rnd2 (z : ℚ) = (z : ℚ) := by
  rw [rnd2]
  have h : ⌊(z : ℚ) * 100⌋ = z * 100 := by
    rw [show ((z : ℚ) * 100) = ((z * 100 : ℤ) : ℚ) by push_cast; ring, Int.floor_intCast]
  rw [h]
  have h2 : (z : ℚ) * 100 - ((z * 100 : ℤ) : ℚ) = 0 := by push_cast; ring
  rw [h2]
  norm_num

theorem rnd2_natCast (m : ℕ) : rnd2 (m : ℚ) = (m : ℚ) := by
  have h := rnd2_intCast (m : ℤ)
  push_cast at h
  exact h

theorem clampScore_natCast (m : ℕ) (h : m ≤ 100) : clampScore (m : ℚ) = (m : ℚ) := by
  rw [clampScore, rnd2_natCast]
  rw [min_eq_right (by exact_mod_cast h), max_eq_right (by positivity)]

theorem aggregatedSkillScores_nil : aggregatedSkillScores [] =
    [("DSA", 0), ("System Design", 0), ("Behavioral", 0), ("Communication", 0)] := by
  simp [aggregatedSkillScores, skillBuckets, REQUIRED_SKILLS]

theorem recommendationsOf_zero :
    recommendationsOf
        [("DSA", 0), ("System Design", 0), ("Behavioral", 0), ("Communication", 0)] 0 =
      ["Improve system design fundamentals", "Practice DSA problem solving regularly",
        "Practice timed mock interviews to improve consistency"] := by
  rw [recommendationsOf]
  simp [dictGetQ]

theorem buildPayload_nil (n : ℕ) :
    buildPayload [] n =
      { total_interviews := 0
        completed_interviews := 0
        pending_interviews := 0
        completion_rate := 0
        average_score := 0
        strongest_skill := "-"
        weakest_skill := "-"
        skill_scores := [("DSA", 0), ("System Design", 0), ("Behavioral", 0), ("Communication", 0)]
        score_trend := []
        role_breakdown := []
        updated_at := n
        recommendations := ["Improve system design fundamentals",
          "Practice DSA problem solving regularly",
          "Practice timed mock interviews to improve consistency"] } := by
  rw [buildPayload]
  rw [show completedOf [] = [] from rfl, aggregatedSkillScores_nil]
  rw [show averageScoreOf (([] : List Interview).map extractTotalScore) = 0 by
    simp [averageScoreOf]]
  rw [recommendationsOf_zero]
  simp [completionRateOf, trendOf, roleBreakdownOf, roleStats]

theorem skillFold_zero :
    REQUIRED_SKILLS.foldl (fun d skill => dictSet d skill (clampScore (dictGetQ d skill)))
      [("DSA", (0 : ℚ)), ("System Design", 0), ("Behavioral", 0), ("Communication", 0)] =
      [("DSA", 0), ("System Design", 0), ("Behavioral", 0), ("Communication", 0)] := by
  have h1 : dictSet [("DSA", (0 : ℚ)), ("System Design", 0), ("Behavioral", 0), ("Communication", 0)]
      "DSA" (clampScore (dictGetQ [("DSA", (0 : ℚ)), ("System Design", 0), ("Behavioral", 0),
        ("Communication", 0)] "DSA")) =
      [("DSA", 0), ("System Design", 0), ("Behavioral", 0), ("Communication", 0)] := by
    simp [dictSet, dictGetQ, clampScore_zero]
  have h2 : dictSet [("DSA", (0 : ℚ)), ("System Design", 0), ("Behavioral", 0), ("Communication", 0)]
      "System Design" (clampScore (dictGetQ [("DSA", (0 : ℚ)), ("System Design", 0), ("Behavioral", 0),
        ("Communication", 0)] "System Design")) =
      [("DSA", 0), ("System Design", 0), ("Behavioral", 0), ("Communication", 0)] := by
    simp [dictSet, dictGetQ, clampScore_zero]
  have h3 : dictSet [("DSA", (0 : ℚ)), ("System Design", 0), ("Behavioral", 0), ("Communication", 0)]
      "Behavioral" (clampScore (dictGetQ [("DSA", (0 : ℚ)), ("System Design", 0), ("Behavioral", 0),
        ("Communication", 0)] "Behavioral")) =
      [("DSA", 0), ("System Design", 0), ("Behavioral", 0), ("Communication", 0)] := by
    simp [dictSet, dictGetQ, clampScore_zero]
  have h4 : dictSet [("DSA", (0 : ℚ)), ("System Design", 0), ("Behavioral", 0), ("Communication", 0)]
      "Communication" (clampScore (dictGetQ [("DSA", (0 : ℚ)), ("System Design", 0), ("Behavioral", 0),
        ("Communication", 0)] "Communication")) =
      [("DSA", 0), ("System Design", 0), ("Behavioral", 0), ("Communication", 0)] := by
    simp [dictSet, dictGetQ, clampScore_zero]
  rw [REQUIRED_SKILLS]
  rw [List.foldl_cons, h1, List.foldl_cons, h2, List.foldl_cons, h3, List.foldl_cons, h4,
    List.foldl_nil]

theorem validateIntelligence_nil (n : ℕ) :
    validateIntelligence (buildPayload [] n) = Except.ok (buildPayload [] n) := by
  rw [buildPayload_nil, validateIntelligence]
  dsimp only
  rw [skillFold_zero, clampScore_zero]
  norm_num

theorem clampScore_sixty : clampScore 60 = 60 := by
  have h := clampScore_natCast 60 (by norm_num)
  norm_num at h
  exact h

theorem completedOf_dupDemo :
    completedOf [demoCompleted "a" 50 1, demoCompleted "a" 70 2] =
      [demoCompleted "a" 50 1, demoCompleted "a" 70 2] := by
  simp [completedOf, demoCompleted]

theorem trend_ids_dupDemo :
    (buildPayload [demoCompleted "a" 50 1, demoCompleted "a" 70 2] 3).score_trend.map
        (fun item => item.interview_id) = ["a", "a"] := by
  show ((trendOf (completedOf [demoCompleted "a" 50 1, demoCompleted "a" 70 2])).map
      (fun item => item.interview_id)) = ["a", "a"]
  rw [completedOf_dupDemo]
  simp [trendOf, idStr, demoCompleted, List.enum, List.enumFrom, Function.comp]

theorem validate_avg_check (q : ℚ) : ¬(clampScore q < 0 ∨ 100 < clampScore q) := by
  push_neg
  exact ⟨clampScore_nonneg q, clampScore_le q⟩

theorem validate_dupDemo_err :
    validateIntelligence (buildPayload [demoCompleted "a" 50 1, demoCompleted "a" 70 2] 3) =
      Except.error "duplicate entries in score_trend" := by
  rw [validateIntelligence]
  rw [if_neg (show
    ¬((buildPayload [demoCompleted "a" 50 1, demoCompleted "a" 70 2] 3).total_interviews < 0) by
      show ¬(((2 : ℕ) : ℤ) < 0); norm_num)]
  dsimp only
  rw [if_neg (validate_avg_check _)]
  rw [trend_ids_dupDemo]
  simp

theorem trend_demoSingle :
    (buildPayload [demoCompleted "a" 60 10] 0).score_trend =
      [{ interview_id := "a", attempt := 1, date := some 10, score := 60 }] := by
  show trendOf (completedOf [demoCompleted "a" 60 10]) = _
  rw [show completedOf [demoCompleted "a" 60 10] = [demoCompleted "a" 60 10] by
    simp [completedOf, demoCompleted]]
  simp [trendOf, idStr, chainDate, extractTotalScore, toScore, demoCompleted,
    List.enum, List.enumFrom, clampScore_sixty]

theorem clampScore_eighty : clampScore 80 = 80 := by
  have h := clampScore_natCast 80 (by norm_num)
  norm_num at h
  exact h

theorem clampScore_hundred : clampScore 100 = 100 := by
  have h := clampScore_natCast 100 (by norm_num)
  norm_num at h
  exact h

theorem rnd2_eighty : rnd2 80 = 80 := by
  have h := rnd2_natCast 80
  norm_num at h
  exact h

theorem buildPayload_set_time (ivs : List Interview) (n : ℕ) :
    buildPayload ivs n = { buildPayload ivs 0 with updated_at := n } := rfl

theorem rebuild_fst (ivs : List Interview) (n : ℕ) (s : Option Payload) :
    (rebuildUserIntelligence ivs n s).1 = validateIntelligence (buildPayload ivs n) := by
  show (match validateIntelligence (buildPayload ivs n) with
        | Except.error e => (Except.error e, s)
        | Except.ok v => (Except.ok v, some v)).1 = _
  cases h : validateIntelligence (buildPayload ivs n) <;> rfl

theorem validate_set_time (p : Payload) (n : ℕ) :
    validateIntelligence { p with updated_at := n } =
      Except.map (fun q => { q with updated_at := n }) (validateIntelligence p) := by
  rw [validateIntelligence, validateIntelligence]
  dsimp only
  split_ifs <;> rfl

theorem pickMax_spec (l : List (String × ℚ)) : ∀ best : String × ℚ,
    (pickMax best l = best ∧ ∀ q ∈ l, q.2 ≤ best.2) ∨
    (∃ k, ∃ hk : k < l.length,
      pickMax best l = l.get ⟨k, hk⟩ ∧ best.2 < (l.get ⟨k, hk⟩).2 ∧
      (∀ q ∈ l, q.2 ≤ (l.get ⟨k, hk⟩).2) ∧
      (∀ j, ∀ hj : j < l.length, j < k → (l.get ⟨j, hj⟩).2 < (l.get ⟨k, hk⟩).2)) := by
  induction l with
  | nil =>
    intro best
    left
    exact ⟨rfl, by simp⟩
  | cons p rest ih =>
    intro best
    rw [pickMax]
    by_cases hbp : best.2 < p.2
    · rw [if_pos hbp]
      rcases ih p with ⟨heq, hall⟩ | ⟨k, hk, heq, hlt, hall, hfirst⟩
      · right
        refine ⟨0, Nat.succ_pos _, heq, hbp, ?_, ?_⟩
        · intro q hq
          rcases List.mem_cons.mp hq with h | h
          · rw [h]; exact le_refl _
          · exact hall q h
        · intro j hj hj0
          omega
      · right
        refine ⟨k + 1, Nat.succ_lt_succ hk, heq, hbp.trans hlt, ?_, ?_⟩
        · intro q hq
          rcases List.mem_cons.mp hq with h | h
          · rw [h]; exact le_of_lt hlt
          · exact hall q h
        · intro j hj hjk
          match j, hj with
          | 0, hj => exact hlt
          | j + 1, hj => exact hfirst j (Nat.lt_of_succ_lt_succ hj) (Nat.lt_of_succ_lt_succ hjk)
    · rw [if_neg hbp]
      have hpb : p.2 ≤ best.2 := le_of_not_lt hbp
      rcases ih best with ⟨heq, hall⟩ | ⟨k, hk, heq, hlt, hall, hfirst⟩
      · left
        refine ⟨heq, ?_⟩
        intro q hq
        rcases List.mem_cons.mp hq with h | h
        · rw [h]; exact hpb
        · exact hall q h
      · right
        refine ⟨k + 1, Nat.succ_lt_succ hk, heq, hlt, ?_, ?_⟩
        · intro q hq
          rcases List.mem_cons.mp hq with h | h
          · rw [h]; exact le_of_lt (lt_of_le_of_lt hpb hlt)
          · exact hall q h
        · intro j hj hjk
          match j, hj with
          | 0, hj => exact lt_of_le_of_lt hpb hlt
          | j + 1, hj => exact hfirst j (Nat.lt_of_succ_lt_succ hj) (Nat.lt_of_succ_lt_succ hjk)

theorem pickMin_spec (l : List (String × ℚ)) : ∀ best : String × ℚ,
    (pickMin best l = best ∧ ∀ q ∈ l, best.2 ≤ q.2) ∨
    (∃ k, ∃ hk : k < l.length,
      pickMin best l = l.get ⟨k, hk⟩ ∧ (l.get ⟨k, hk⟩).2 < best.2 ∧
      (∀ q ∈ l, (l.get ⟨k, hk⟩).2 ≤ q.2) ∧
      (∀ j, ∀ hj : j < l.length, j < k → (l.get ⟨k, hk⟩).2 < (l.get ⟨j, hj⟩).2)) := by
  induction l with
  | nil =>
    intro best
    left
    exact ⟨rfl, by simp⟩
  | cons p rest ih =>
    intro best
    rw [pickMin]
    by_cases hbp : p.2 < best.2
    · rw [if_pos hbp]
      rcases ih p with ⟨heq, hall⟩ | ⟨k, hk, heq, hlt, hall, hfirst⟩
      · right
        refine ⟨0, Nat.succ_pos _, heq, hbp, ?_, ?_⟩
        · intro q hq
          rcases List.mem_cons.mp hq with h | h
          · rw [h]; exact le_refl _
          · exact hall q h
        · intro j hj hj0
          omega
      · right
        refine ⟨k + 1, Nat.succ_lt_succ hk, heq, hlt.trans hbp, ?_, ?_⟩
        · intro q hq
          rcases List.mem_cons.mp hq with h | h
          · rw [h]; exact le_of_lt hlt
          · exact hall q h
        · intro j hj hjk
          match j, hj with
          | 0, hj => exact hlt
          | j + 1, hj => exact hfirst j (Nat.lt_of_succ_lt_succ hj) (Nat.lt_of_succ_lt_succ hjk)
    · rw [if_neg hbp]
      have hpb : best.2 ≤ p.2 := le_of_not_lt hbp
      rcases ih best with ⟨heq, hall⟩ | ⟨k, hk, heq, hlt, hall, hfirst⟩
      · left
        refine ⟨heq, ?_⟩
        intro q hq
        rcases List.mem_cons.mp hq with h | h
        · rw [h]; exact hpb
        · exact hall q h
      · right
        refine ⟨k + 1, Nat.succ_lt_succ hk, heq, hlt, ?_, ?_⟩
        · intro q hq
          rcases List.mem_cons.mp hq with h | h
          · rw [h]; exact le_of_lt (lt_of_lt_of_le hlt hpb)
          · exact hall q h
        · intro j hj hjk
          match j, hj with
          | 0, hj => exact lt_of_lt_of_le hlt hpb
          | j + 1, hj => exact hfirst j (Nat.lt_of_succ_lt_succ hj) (Nat.lt_of_succ_lt_succ hjk)

theorem argmaxKey_spec (d : List (String × ℚ)) (hd : d ≠ []) :
    ∃ k, ∃ hk : k < d.length,
      argmaxKey d = (d.get ⟨k, hk⟩).1 ∧
      (∀ j, ∀ hj : j < d.length, (d.get ⟨j, hj⟩).2 ≤ (d.get ⟨k, hk⟩).2) ∧
      (∀ j, ∀ hj : j < d.length, j < k → (d.get ⟨j, hj⟩).2 < (d.get ⟨k, hk⟩).2) := by
  match d with
  | p :: rest =>
    rw [argmaxKey]
    rcases pickMax_spec rest p with ⟨heq, hall⟩ | ⟨k, hk, heq, hlt, hall, hfirst⟩
    · refine ⟨0, Nat.succ_pos _, by rw [heq]; rfl, ?_, ?_⟩
      · intro j hj
        match j, hj with
        | 0, hj => exact le_refl _
        | j + 1, hj => exact hall _ (List.get_mem rest j (Nat.lt_of_succ_lt_succ hj))
      · intro j hj hj0
        omega
    · refine ⟨k + 1, Nat.succ_lt_succ hk, by rw [heq]; rfl, ?_, ?_⟩
      · intro j hj
        match j, hj with
        | 0, hj => exact le_of_lt hlt
        | j + 1, hj => exact hall _ (List.get_mem rest j (Nat.lt_of_succ_lt_succ hj))
      · intro j hj hjk
        match j, hj with
        | 0, hj => exact hlt
        | j + 1, hj => exact hfirst j (Nat.lt_of_succ_lt_succ hj) (Nat.lt_of_succ_lt_succ hjk)

theorem argminKey_spec (d : List (String × ℚ)) (hd : d ≠ []) :
    ∃ k, ∃ hk : k < d.length,
      argminKey d = (d.get ⟨k, hk⟩).1 ∧
      (∀ j, ∀ hj : j < d.length, (d.get ⟨k, hk⟩).2 ≤ (d.get ⟨j, hj⟩).2) ∧
      (∀ j, ∀ hj : j < d.length, j < k → (d.get ⟨k, hk⟩).2 < (d.get ⟨j, hj⟩).2) := by
  match d with
  | p :: rest =>
    rw [argminKey]
    rcases pickMin_spec rest p with ⟨heq, hall⟩ | ⟨k, hk, heq, hlt, hall, hfirst⟩
    · refine ⟨0, Nat.succ_pos _, by rw [heq]; rfl, ?_, ?_⟩
      · intro j hj
        match j, hj with
        | 0, hj => exact le_refl _
        | j + 1, hj => exact hall _ (List.get_mem rest j (Nat.lt_of_succ_lt_succ hj))
      · intro j hj hj0
        omega
    · refine ⟨k + 1, Nat.succ_lt_succ hk, by rw [heq]; rfl, ?_, ?_⟩
      · intro j hj
        match j, hj with
        | 0, hj => exact le_of_lt hlt
        | j + 1, hj => exact hall _ (List.get_mem rest j (Nat.lt_of_succ_lt_succ hj))
      · intro j hj hjk
        match j, hj with
        | 0, hj => exact hlt
        | j + 1, hj => exact hfirst j (Nat.lt_of_succ_lt_succ hj) (Nat.lt_of_succ_lt_succ hjk)

theorem aggregated_length (c : List Interview) :
    (aggregatedSkillScores c).length = 4 := by
  simp [aggregatedSkillScores, skillBuckets, REQUIRED_SKILLS]

theorem trend_map_interview_id (ivs : List Interview) (n : ℕ) :
    (buildPayload ivs n).score_trend.map (fun e => e.interview_id)
      = (completedOf ivs).map (fun i => idStr i.mongoId) := by
  show ((completedOf ivs).enum.map _).map _ = _
  rw [List.map_map]
  rw [show ((fun e : TrendEntry => e.interview_id) ∘ (fun p : ℕ × Interview =>
      ({ interview_id := idStr p.2.mongoId
         attempt := p.1 + 1
         date := chainDate p.2
         score := extractTotalScore p.2 } : TrendEntry)))
      = ((fun i : Interview => idStr i.mongoId) ∘ Prod.snd) from rfl]
  rw [← List.map_map, List.enum_map_snd]

theorem trend_ids_nodup (ivs : List Interview) (n : ℕ)
    (h1 : ∀ i ∈ completedOf ivs, i.mongoId.isSome)
    (h2 : ((completedOf ivs).map (fun i => i.mongoId)).Nodup) :
    ((buildPayload ivs n).score_trend.map (fun e => e.interview_id)).Nodup := by
  rw [trend_map_interview_id]
  rw [show (fun i : Interview => idStr i.mongoId) = (idStr ∘ (fun i => i.mongoId)) from rfl]
  rw [← List.map_map]
  apply List.Nodup.map_on ?_ h2
  intro x hx y hy hxy
  rw [List.mem_map] at hx hy
  obtain ⟨i, hi, rfl⟩ := hx
  obtain ⟨j, hj, rfl⟩ := hy
  obtain ⟨a, ha⟩ := Option.isSome_iff_exists.mp (h1 i hi)
  obtain ⟨b, hb⟩ := Option.isSome_iff_exists.mp (h1 j hj)
  rw [ha, hb] at hxy ⊢
  rw [show idStr (some a) = a from rfl, show idStr (some b) = b from rfl] at hxy
  rw [hxy]

theorem validate_of_trend_nodup (p : Payload) (ht : ¬(p.total_interviews < 0))
    (hids : ((p.score_trend.map (fun item => item.interview_id)).filter
      (fun s => s ≠ "")).Nodup) :
    validateIntelligence p = Except.ok { p with skill_scores :=
      (REQUIRED_SKILLS.foldl
        (fun d skill => dictSet d skill (clampScore (dictGetQ d skill))) p.skill_scores) } := by
  rw [validateIntelligence]
  rw [if_neg ht]
  dsimp only
  rw [if_neg (validate_avg_check _)]
  rw [if_neg (show ¬(((p.score_trend.map (fun item => item.interview_id)).filter
      (fun s => s ≠ "")).length ≠ ((p.score_trend.map (fun item => item.interview_id)).filter
      (fun s => s ≠ "")).dedup.length) by
    intro hne
    rw [List.dedup_eq_self.mpr hids] at hne
    exact hne rfl)]

theorem rnd2_forty : rnd2 40 = 40 := by
  have h := rnd2_natCast 40
  norm_num at h
  exact h

theorem specSkillScore_demoPair :
    specSkillScore [demoCompleted "a" 80 1, demoNoSkills "b" 90 2] "DSA" = 80 := by
  rw [specSkillScore]
  rw [show completedOf [demoCompleted "a" 80 1, demoNoSkills "b" 90 2]
      = [demoCompleted "a" 80 1, demoNoSkills "b" 90 2] by
    simp [completedOf, demoCompleted, demoNoSkills]]
  simp [demoCompleted, demoNoSkills, rawSkillDict, dictGetD, toScore, clampScore_eighty]
  norm_num [rnd2_eighty]

theorem codeSkillScore_demoPair :
    dictGetQ (buildPayload [demoCompleted "a" 80 1, demoNoSkills "b" 90 2] 0).skill_scores
      "DSA" = 40 := by
  show dictGetQ (aggregatedSkillScores
      (completedOf [demoCompleted "a" 80 1, demoNoSkills "b" 90 2])) "DSA" = 40
  rw [show completedOf [demoCompleted "a" 80 1, demoNoSkills "b" 90 2]
      = [demoCompleted "a" 80 1, demoNoSkills "b" 90 2] by
    simp [completedOf, demoCompleted, demoNoSkills]]
  rw [aggregatedSkillScores, skillBuckets, REQUIRED_SKILLS]
  simp [dictGetQ, skillValue, rawSkillDict, dictGetD, demoCompleted, demoNoSkills, toScore,
    clampScore_eighty, clampScore_zero]
  norm_num [rnd2_forty]

/-! ## Claim theorems -/

/-- C2 counterexample: with one completed interview storing DSA 80 and a
second completed interview storing no skill values at all, the spec's
exclusion rule predicts a DSA mean of 80, but the code appends a normalized 0
for the skill-less interview to every bucket and stores 40. -/
theorem skill_mean_exclusion_cex :
    specSkillScore [demoCompleted "a" 80 1, demoNoSkills "b" 90 2] "DSA" = 80 ∧
    dictGetQ (buildPayload [demoCompleted "a" 80 1, demoNoSkills "b" 90 2] 0).skill_scores
      "DSA" = 40 ∧
    dictGetQ (buildPayload [demoCompleted "a" 80 1, demoNoSkills "b" 90 2] 0).skill_scores
        "DSA"
      ≠ specSkillScore [demoCompleted "a" 80 1, demoNoSkills "b" 90 2] "DSA" := by
  refine ⟨specSkillScore_demoPair, codeSkillScore_demoPair, ?_⟩
  rw [specSkillScore_demoPair, codeSkillScore_demoPair]
  norm_num

/-- C2 (amended): each aggregated skill score is the 2-decimal-rounded mean of
that skill's clamped values over ALL completed interviews — an interview with
no stored value for the skill contributes a 0 to that skill's mean — and 0
when there is no completed interview at all. -/
theorem skill_mean_amended (ivs : List Interview) (n : ℕ) (skill : String)
    (hs : skill ∈ REQUIRED_SKILLS) :
    dictGetQ (buildPayload ivs n).skill_scores skill =
      if completedOf ivs = [] then 0
      else rnd2 (((completedOf ivs).map (fun i => skillValue i skill)).sum
        / ((completedOf ivs).length : ℚ)) := by
  have key : ∀ s : String, s ∈ REQUIRED_SKILLS →
      dictGetQ (aggregatedSkillScores (completedOf ivs)) s =
        (if (completedOf ivs).map (fun i => skillValue i s) ≠ [] then
          rnd2 (((completedOf ivs).map (fun i => skillValue i s)).sum
            / (((completedOf ivs).map (fun i => skillValue i s)).length : ℚ))
        else 0) := by
    intro s hmem
    rw [aggregatedSkillScores, skillBuckets, REQUIRED_SKILLS]
    simp only [List.mem_cons, List.not_mem_nil, or_false, REQUIRED_SKILLS] at hmem
    rcases hmem with rfl | rfl | rfl | rfl <;>
      simp [dictGetQ]
  rw [show dictGetQ (buildPayload ivs n).skill_scores skill
      = dictGetQ (aggregatedSkillScores (completedOf ivs)) skill from rfl, key skill hs]
  by_cases h : completedOf ivs = []
  · simp [h]
  · rw [if_pos (by simp [h]), if_neg h, List.length_map]

/-- Witness for the amended C2 at the counterexample's concrete input. -/
theorem skill_mean_amended_witness :
    dictGetQ (buildPayload [demoCompleted "a" 80 1, demoNoSkills "b" 90 2] 0).skill_scores
        "DSA" =
      if completedOf [demoCompleted "a" 80 1, demoNoSkills "b" 90 2] = [] then 0
      else rnd2 (((completedOf [demoCompleted "a" 80 1, demoNoSkills "b" 90 2]).map
          (fun i => skillValue i "DSA")).sum
        / ((completedOf [demoCompleted "a" 80 1, demoNoSkills "b" 90 2]).length : ℚ)) :=
  skill_mean_amended [demoCompleted "a" 80 1, demoNoSkills "b" 90 2] 0 "DSA" (by decide)

/-- C1: rebuild is deterministic in the interview state: two rebuilds over the
identical interview list agree on every summary field except `updated_at`
(counts, completion rate, average, skill scores, strongest/weakest skill,
trend, role breakdown and recommendations all depend only on the interview
records), whatever the current time and prior store content are. -/
theorem rebuild_deterministic (ivs : List Interview) (n1 n2 : ℕ)
    (s1 s2 : Option Payload) :
    eqExceptUpdatedAt (buildPayload ivs n1) (buildPayload ivs n2) ∧
    Except.map clearUpdatedAt (rebuildUserIntelligence ivs n1 s1).1
      = Except.map clearUpdatedAt (rebuildUserIntelligence ivs n2 s2).1 := by
  have key : ∀ (n : ℕ) (s : Option Payload),
      Except.map clearUpdatedAt (rebuildUserIntelligence ivs n s).1
        = Except.map clearUpdatedAt (validateIntelligence (buildPayload ivs 0)) := by
    intro n s
    rw [rebuild_fst, buildPayload_set_time ivs n, validate_set_time (buildPayload ivs 0) n]
    cases validateIntelligence (buildPayload ivs 0) <;> rfl
  exact ⟨⟨rfl, rfl, rfl, rfl, rfl, rfl, rfl, rfl, rfl, rfl, rfl⟩,
    (key n1 s1).trans (key n2 s2).symm⟩

/-- C4: for every list of interview records with any mixture of statuses, the
summary satisfies `completed_interviews + pending_interviews =
total_interviews`, where `completed_interviews` counts exactly the records
whose status is `"completed"` and `total_interviews` counts all records. -/
theorem completion_accounting (ivs : List Interview) (n : ℕ) :
    (buildPayload ivs n).completed_interviews + (buildPayload ivs n).pending_interviews
        = (buildPayload ivs n).total_interviews ∧
    (buildPayload ivs n).completed_interviews
        = ((ivs.filter (fun i => i.status == some "completed")).length : ℤ) ∧
    (buildPayload ivs n).total_interviews = (ivs.length : ℤ) := by
  refine ⟨?_, rfl, rfl⟩
  show ((completedOf ivs).length : ℤ)
      + ((ivs.length : ℤ) - ((completedOf ivs).length : ℤ)) = (ivs.length : ℤ)
  ring

/-- C9: with at least one completed interview, `strongest_skill` and
`weakest_skill` are the argmax and argmin over the aggregated skill scores,
ties broken by the first maximal (resp. minimal) entry in the fixed
skill iteration order (the skill dict's keys are exactly DSA, System Design,
Behavioral, Communication in that order); with no completed interview both
are the sentinel "-". -/
theorem strongest_weakest_argmax (ivs : List Interview) (n : ℕ) :
    ((buildPayload ivs n).skill_scores.map Prod.fst = REQUIRED_SKILLS) ∧
    (completedOf ivs = [] →
      (buildPayload ivs n).strongest_skill = "-" ∧
      (buildPayload ivs n).weakest_skill = "-") ∧
    (completedOf ivs ≠ [] →
      ((buildPayload ivs n).strongest_skill = argmaxKey (buildPayload ivs n).skill_scores ∧
        (buildPayload ivs n).weakest_skill = argminKey (buildPayload ivs n).skill_scores) ∧
      (∃ k, ∃ hk : k < (buildPayload ivs n).skill_scores.length,
        (buildPayload ivs n).strongest_skill
            = ((buildPayload ivs n).skill_scores.get ⟨k, hk⟩).1 ∧
        (∀ j, ∀ hj : j < (buildPayload ivs n).skill_scores.length,
          ((buildPayload ivs n).skill_scores.get ⟨j, hj⟩).2
              ≤ ((buildPayload ivs n).skill_scores.get ⟨k, hk⟩).2) ∧
        (∀ j, ∀ hj : j < (buildPayload ivs n).skill_scores.length, j < k →
          ((buildPayload ivs n).skill_scores.get ⟨j, hj⟩).2
              < ((buildPayload ivs n).skill_scores.get ⟨k, hk⟩).2)) ∧
      (∃ k, ∃ hk : k < (buildPayload ivs n).skill_scores.length,
        (buildPayload ivs n).weakest_skill
            = ((buildPayload ivs n).skill_scores.get ⟨k, hk⟩).1 ∧
        (∀ j, ∀ hj : j < (buildPayload ivs n).skill_scores.length,
          ((buildPayload ivs n).skill_scores.get ⟨k, hk⟩).2
              ≤ ((buildPayload ivs n).skill_scores.get ⟨j, hj⟩).2) ∧
        (∀ j, ∀ hj : j < (buildPayload ivs n).skill_scores.length, j < k →
          ((buildPayload ivs n).skill_scores.get ⟨k, hk⟩).2
              < ((buildPayload ivs n).skill_scores.get ⟨j, hj⟩).2))) := by
  have hlen : (buildPayload ivs n).skill_scores.length = 4 :=
    aggregated_length (completedOf ivs)
  have hne : (buildPayload ivs n).skill_scores ≠ [] := by
    intro h
    rw [h] at hlen
    simp at hlen
  refine ⟨?_, ?_, ?_⟩
  · show (aggregatedSkillScores (completedOf ivs)).map Prod.fst = REQUIRED_SKILLS
    rw [aggregatedSkillScores, skillBuckets, List.map_map, List.map_map]
    exact List.map_id _
  · intro h
    constructor
    · show (if (completedOf ivs).length ≠ 0 then
          argmaxKey (aggregatedSkillScores (completedOf ivs)) else "-") = "-"
      rw [h]
      simp
    · show (if (completedOf ivs).length ≠ 0 then
          argminKey (aggregatedSkillScores (completedOf ivs)) else "-") = "-"
      rw [h]
      simp
  · intro h
    have hlen0 : (completedOf ivs).length ≠ 0 := by
      intro h0
      exact h (List.length_eq_zero.mp h0)
    have hsmax : (buildPayload ivs n).strongest_skill
        = argmaxKey (buildPayload ivs n).skill_scores := by
      show (if (completedOf ivs).length ≠ 0 then
          argmaxKey (aggregatedSkillScores (completedOf ivs)) else "-") = _
      rw [if_pos hlen0]
      rfl
    have hsmin : (buildPayload ivs n).weakest_skill
        = argminKey (buildPayload ivs n).skill_scores := by
      show (if (completedOf ivs).length ≠ 0 then
          argminKey (aggregatedSkillScores (completedOf ivs)) else "-") = _
      rw [if_pos hlen0]
      rfl
    refine ⟨⟨hsmax, hsmin⟩, ?_, ?_⟩
    · obtain ⟨k, hk, heq, hall, hfirst⟩ := argmaxKey_spec _ hne
      exact ⟨k, hk, hsmax.trans heq, hall, hfirst⟩
    · obtain ⟨k, hk, heq, hall, hfirst⟩ := argminKey_spec _ hne
      exact ⟨k, hk, hsmin.trans heq, hall, hfirst⟩

/-- Witness for C9: the sentinel case at an empty history and the argmax/argmin
case at a concrete mixed history. -/
theorem strongest_weakest_argmax_witness :
    ((buildPayload [] 0).strongest_skill = "-" ∧
      (buildPayload [] 0).weakest_skill = "-") ∧
    ((buildPayload demoMix 0).strongest_skill
        = argmaxKey (buildPayload demoMix 0).skill_scores ∧
      (buildPayload demoMix 0).weakest_skill
        = argminKey (buildPayload demoMix 0).skill_scores) :=
  ⟨(strongest_weakest_argmax [] 0).2.1 rfl,
    ((strongest_weakest_argmax demoMix 0).2.2 (by decide)).1⟩

/-- C10: under non-null pairwise-distinct interview ids, the validation pass
on the payload assembled by rebuild never raises — the total is a list length
and hence non-negative, the average is clamped before the range check, and the
trend ids are exactly the distinct interview ids of the completed interviews,
so the duplicate branch is unreachable — and the rebuild completes with the
upsert. -/
theorem validation_pass_safe (ivs : List Interview) (n : ℕ) (store : Option Payload)
    (h1 : ∀ i ∈ ivs, i.mongoId.isSome)
    (h2 : (ivs.map (fun i => i.mongoId)).Nodup) :
    (∃ p, validateIntelligence (buildPayload ivs n) = Except.ok p) ∧
    (∃ p, rebuildUserIntelligence ivs n store = (Except.ok p, some p)) := by
  have hc1 : ∀ i ∈ completedOf ivs, i.mongoId.isSome := by
    intro i hi
    exact h1 i (List.mem_of_mem_filter hi)
  have hc2 : ((completedOf ivs).map (fun i => i.mongoId)).Nodup :=
    h2.sublist ((List.filter_sublist ivs).map (fun i => i.mongoId))
  have hnd : ((buildPayload ivs n).score_trend.map (fun e => e.interview_id)).Nodup :=
    trend_ids_nodup ivs n hc1 hc2
  have ht : ¬((buildPayload ivs n).total_interviews < 0) := by
    show ¬(((ivs.length : ℕ) : ℤ) < 0)
    exact not_lt.mpr (Int.natCast_nonneg _)
  have hval := validate_of_trend_nodup (buildPayload ivs n) ht (hnd.filter _)
  obtain ⟨v, hv⟩ : ∃ p, validateIntelligence (buildPayload ivs n) = Except.ok p := ⟨_, hval⟩
  refine ⟨⟨v, hv⟩, ⟨v, ?_⟩⟩
  show (match validateIntelligence (buildPayload ivs n) with
        | Except.error e => (Except.error e, store)
        | Except.ok w => (Except.ok w, some w)) = (Except.ok v, some v)
  rw [hv]

/-- Witness for C10 on a concrete mixed-status history with distinct ids. -/
theorem validation_pass_safe_witness :
    (∃ p, validateIntelligence (buildPayload demoMix 1) = Except.ok p) ∧
    (∃ p, rebuildUserIntelligence demoMix 1 none = (Except.ok p, some p)) :=
  validation_pass_safe demoMix 1 none (by decide) (by decide)

/-- C3: every value coerced to a score — `_to_score` outputs, total scores,
per-skill values, and every score stored in the score trend — lies in
`[0, 100]`, and a null, non-numeric, or missing (defaulted-to-`0`) input
coerces to exactly `0`. -/
theorem scores_clamped :
    (∀ v : JVal, 0 ≤ toScore v ∧ toScore v ≤ 100) ∧
    toScore JVal.vnone = 0 ∧ toScore JVal.vbad = 0 ∧ toScore (JVal.vnum 0) = 0 ∧
    (∀ i : Interview, 0 ≤ extractTotalScore i ∧ extractTotalScore i ≤ 100) ∧
    (∀ (i : Interview) (skill : String),
        0 ≤ skillValue i skill ∧ skillValue i skill ≤ 100) ∧
    (∀ (ivs : List Interview) (n : ℕ), ∀ e ∈ (buildPayload ivs n).score_trend,
        0 ≤ e.score ∧ e.score ≤ 100) := by
  refine ⟨fun v => ⟨toScore_nonneg v, toScore_le v⟩, toScore_vnone, toScore_vbad,
    toScore_vnum_zero,
    fun i => ⟨extractTotalScore_nonneg i, extractTotalScore_le i⟩,
    fun i skill => ⟨toScore_nonneg _, toScore_le _⟩, ?_⟩
  intro ivs n e he
  have h : e ∈ (completedOf ivs).enum.map (fun p =>
      ({ interview_id := idStr p.2.mongoId
         attempt := p.1 + 1
         date := chainDate p.2
         score := extractTotalScore p.2 } : TrendEntry)) := he
  rw [List.mem_map] at h
  obtain ⟨p, hp, hpe⟩ := h
  rw [← hpe]
  exact ⟨extractTotalScore_nonneg _, extractTotalScore_le _⟩

/-- Witness for C3 at a concrete trend entry of a concrete rebuild. -/
theorem scores_clamped_witness :
    0 ≤ ({ interview_id := "a", attempt := 1, date := some 10, score := 60 }
          : TrendEntry).score ∧
    ({ interview_id := "a", attempt := 1, date := some 10, score := 60 }
          : TrendEntry).score ≤ 100 :=
  scores_clamped.2.2.2.2.2.2 [demoCompleted "a" 60 10] 0 _
    (by rw [trend_demoSingle]; exact List.mem_singleton_self _)

/-- C5: `average_score` is the 2-decimal-rounded mean of the (clamped) total
scores over completed interviews, and 0 when no interview is completed; in
particular completed interviews scoring 60, 80 and 100 average to exactly
80. -/
theorem average_score_spec (ivs : List Interview) (n : ℕ) :
    ((buildPayload ivs n).average_score =
      if completedOf ivs = [] then 0
      else rnd2 (((completedOf ivs).map extractTotalScore).sum
        / (((completedOf ivs).map extractTotalScore).length : ℚ))) ∧
    (buildPayload [demoCompleted "a" 60 1, demoCompleted "b" 80 2, demoCompleted "c" 100 3]
        n).average_score = 80 := by
  constructor
  · show averageScoreOf ((completedOf ivs).map extractTotalScore) = _
    by_cases h : completedOf ivs = []
    · simp [averageScoreOf, h]
    · simp [averageScoreOf, h]
  · show averageScoreOf ((completedOf [demoCompleted "a" 60 1, demoCompleted "b" 80 2,
        demoCompleted "c" 100 3]).map extractTotalScore) = 80
    rw [show completedOf [demoCompleted "a" 60 1, demoCompleted "b" 80 2, demoCompleted "c" 100 3]
        = [demoCompleted "a" 60 1, demoCompleted "b" 80 2, demoCompleted "c" 100 3] by
      simp [completedOf, demoCompleted]]
    simp only [List.map_cons, List.map_nil]
    rw [show extractTotalScore (demoCompleted "a" 60 1) = 60 by
      simp [extractTotalScore, demoCompleted, toScore, clampScore_sixty]]
    rw [show extractTotalScore (demoCompleted "b" 80 2) = 80 by
      simp [extractTotalScore, demoCompleted, toScore, clampScore_eighty]]
    rw [show extractTotalScore (demoCompleted "c" 100 3) = 100 by
      simp [extractTotalScore, demoCompleted, toScore, clampScore_hundred]]
    rw [averageScoreOf]
    norm_num [rnd2_eighty]
    simp

/-- C6: the rebuilt `score_trend` has exactly one entry per completed
interview, in list (chronological fetch) order: attempts are the 1-based
positions, the id is the string form of the interview id, the date is the
first non-null of completed/updated/created timestamps, the score is the
clamped total score; under non-null pairwise-distinct interview ids the trend
ids contain no duplicate. -/
theorem score_trend_spec (ivs : List Interview) (n : ℕ)
    (h1 : ∀ i ∈ completedOf ivs, i.mongoId.isSome)
    (h2 : ((completedOf ivs).map (fun i => i.mongoId)).Nodup) :
    (buildPayload ivs n).score_trend.map (fun e => e.attempt)
        = List.range' 1 (completedOf ivs).length ∧
    (buildPayload ivs n).score_trend.map (fun e => e.interview_id)
        = (completedOf ivs).map (fun i => idStr i.mongoId) ∧
    (buildPayload ivs n).score_trend.map (fun e => e.date)
        = (completedOf ivs).map chainDate ∧
    (buildPayload ivs n).score_trend.map (fun e => e.score)
        = (completedOf ivs).map extractTotalScore ∧
    ((buildPayload ivs n).score_trend.map (fun e => e.interview_id)).Nodup := by
  refine ⟨?_, trend_map_interview_id ivs n, ?_, ?_, trend_ids_nodup ivs n h1 h2⟩
  · show ((completedOf ivs).enum.map _).map _ = _
    rw [List.map_map]
    rw [show ((fun e : TrendEntry => e.attempt) ∘ (fun p : ℕ × Interview =>
        ({ interview_id := idStr p.2.mongoId
           attempt := p.1 + 1
           date := chainDate p.2
           score := extractTotalScore p.2 } : TrendEntry)))
        = ((fun a : ℕ => a + 1) ∘ Prod.fst) from rfl]
    rw [← List.map_map, List.enum_map_fst, List.range'_eq_map_range]
    simp [Nat.add_comm]
  · show ((completedOf ivs).enum.map _).map _ = _
    rw [List.map_map]
    rw [show ((fun e : TrendEntry => e.date) ∘ (fun p : ℕ × Interview =>
        ({ interview_id := idStr p.2.mongoId
           attempt := p.1 + 1
           date := chainDate p.2
           score := extractTotalScore p.2 } : TrendEntry)))
        = (chainDate ∘ Prod.snd) from rfl]
    rw [← List.map_map, List.enum_map_snd]
  · show ((completedOf ivs).enum.map _).map _ = _
    rw [List.map_map]
    rw [show ((fun e : TrendEntry => e.score) ∘ (fun p : ℕ × Interview =>
        ({ interview_id := idStr p.2.mongoId
           attempt := p.1 + 1
           date := chainDate p.2
           score := extractTotalScore p.2 } : TrendEntry)))
        = (extractTotalScore ∘ Prod.snd) from rfl]
    rw [← List.map_map, List.enum_map_snd]

/-- Witness for C6 on a concrete mixed-status history. -/
theorem score_trend_spec_witness :
    (buildPayload demoMix 0).score_trend.map (fun e => e.attempt)
        = List.range' 1 (completedOf demoMix).length ∧
    (buildPayload demoMix 0).score_trend.map (fun e => e.interview_id)
        = (completedOf demoMix).map (fun i => idStr i.mongoId) ∧
    (buildPayload demoMix 0).score_trend.map (fun e => e.date)
        = (completedOf demoMix).map chainDate ∧
    (buildPayload demoMix 0).score_trend.map (fun e => e.score)
        = (completedOf demoMix).map extractTotalScore ∧
    ((buildPayload demoMix 0).score_trend.map (fun e => e.interview_id)).Nodup :=
  score_trend_spec demoMix 0 (by decide) (by decide)

/-- C7: a user with zero interview records gets a successful rebuild returning
and storing the fully-populated zero-valued summary — zero counts, zero
completion rate and average, all four skills mapped to 0, sentinel "-" for
strongest/weakest skill, empty trend and role breakdown, and a non-empty
rule-derived recommendation list. -/
theorem empty_history_summary (n : ℕ) :
    rebuildUserIntelligence [] n none =
      (Except.ok
        { total_interviews := 0
          completed_interviews := 0
          pending_interviews := 0
          completion_rate := 0
          average_score := 0
          strongest_skill := "-"
          weakest_skill := "-"
          skill_scores := [("DSA", 0), ("System Design", 0), ("Behavioral", 0), ("Communication", 0)]
          score_trend := []
          role_breakdown := []
          updated_at := n
          recommendations := ["Improve system design fundamentals",
            "Practice DSA problem solving regularly",
            "Practice timed mock interviews to improve consistency"] },
        some
        { total_interviews := 0
          completed_interviews := 0
          pending_interviews := 0
          completion_rate := 0
          average_score := 0
          strongest_skill := "-"
          weakest_skill := "-"
          skill_scores := [("DSA", 0), ("System Design", 0), ("Behavioral", 0), ("Communication", 0)]
          score_trend := []
          role_breakdown := []
          updated_at := n
          recommendations := ["Improve system design fundamentals",
            "Practice DSA problem solving regularly",
            "Practice timed mock interviews to improve consistency"] }) ∧
    (buildPayload [] n).recommendations ≠ [] := by
  constructor
  · show (match validateIntelligence (buildPayload [] n) with
          | Except.error err => (Except.error err, (none : Option Payload))
          | Except.ok validated => (Except.ok validated, some validated)) = _
    rw [validateIntelligence_nil, buildPayload_nil]
  · rw [buildPayload_nil]
    simp

/-- C8: when the validation pass fails during rebuild, the error propagates to
the caller and no write to the intelligence store happens — the previously
persisted summary row is left unchanged. -/
theorem validation_failure_aborts (ivs : List Interview) (n : ℕ)
    (store : Option Payload) (e : String)
    (h : validateIntelligence (buildPayload ivs n) = Except.error e) :
    rebuildUserIntelligence ivs n store = (Except.error e, store) := by
  show (match validateIntelligence (buildPayload ivs n) with
        | Except.error err => (Except.error err, store)
        | Except.ok validated => (Except.ok validated, some validated))
      = (Except.error e, store)
  rw [h]

/-- Witness for C8: two completed interviews sharing one interview id make the
assembled trend contain a duplicate id; rebuild then raises and the previously
stored summary survives. -/
theorem validation_failure_aborts_witness :
    rebuildUserIntelligence [demoCompleted "a" 50 1, demoCompleted "a" 70 2] 3
        (some (buildPayload [] 0)) =
      (Except.error "duplicate entries in score_trend", some (buildPayload [] 0)) :=
  validation_failure_aborts [demoCompleted "a" 50 1, demoCompleted "a" 70 2] 3
    (some (buildPayload [] 0)) "duplicate entries in score_trend" validate_dupDemo_err

end CareerIntel
